import Mathlib

/-!
Verification of the matrix-bot-lib sync engine (src/matrix_bot_lib/__init__.py
and src/matrix_bot_lib/MatrixModels.py), as a shallow embedding in Lean 4.

Python values decoded from JSON (plus the `datetime` objects that
`EventMetadata.from_dict` writes back into an envelope) are modelled by
`PyVal`; Python exceptions by `PyExc`; the `result` library's `Ok`/`Err`
by `PResult`.  Stateful methods are modelled as functions from the inputs
they read (scripted HTTP responses, the listener registry, the auth state)
to the values they produce plus a trace of their observable effects
(sleeps, listener invocations, log records).
-/

namespace MatrixBotLib

/-- A Python value as it appears in this code base: the JSON-decodable
values, plus `None` and the `datetime` objects produced by
`datetime.fromtimestamp` (represented by their POSIX timestamp in seconds,
as an exact rational). -/
inductive PyVal where
  | str : String → PyVal
  | num : Int → PyVal
  | bool : Bool → PyVal
  | pynone : PyVal
  | datetime : ℚ → PyVal
  | list : List PyVal → PyVal
  | dict : List (String × PyVal) → PyVal

/-- Python exceptions that the embedded code can raise. -/
inductive PyExc where
  | jsonDecodeError
  | typeError
  | attributeError
  | valueError : String → PyExc
deriving DecidableEq

/-- `dict[k]` lookup on an association list in insertion order (keys are
unique in a Python dict, so the first hit is the binding). -/
def lookupKv (kvs : List (String × PyVal)) (k : String) : Option PyVal :=
  match kvs with
  | [] => none
  | (k', v) :: rest => if k' = k then some v else lookupKv rest k

/-- `j[k]` when `j` is a dict; `none` otherwise (a failed mapping pattern). -/
def lookupPv : PyVal → String → Option PyVal
  | .dict kvs, k => lookupKv kvs k
  | _, _ => none

/-- `d[k] = v` on a Python dict: an existing key keeps its position, a new
key is appended (insertion order). -/
def setKv (kvs : List (String × PyVal)) (k : String) (v : PyVal) :
    List (String × PyVal) :=
  match kvs with
  | [] => [(k, v)]
  | (k', v') :: rest => if k' = k then (k, v) :: rest else (k', v') :: setKv rest k v

/-- The `**rest` of a mapping pattern: the dict minus the matched keys. -/
def removeKv (kvs : List (String × PyVal)) (ks : List String) :
    List (String × PyVal) :=
  kvs.filter (fun p => !(ks.contains p.1))

/-! ## Request Executor: `MatrixBot.process_body` -/

/-- An HTTP response as `process_body` sees it: a status code and a body;
`body = none` models a body that is not valid JSON, so that `r.json()`
raises. -/
structure HttpResponse where
  status : Nat
  body : Option PyVal

/-- The values `process_body` wraps in `Err(...)`:
`errcode` for the 401/403 branch (the JSON `errcode` value), `unknown`
for the catch-all branch (status code and decoded body), `exhausted` for
the post-loop message, carrying the attempt count it reports
(`retry_cnt + 1` for the last loop value of `retry_cnt`). -/
inductive ErrVal where
  | errcode : PyVal → ErrVal
  | unknown : Nat → PyVal → ErrVal
  | exhausted : Nat → ErrVal

/-- The `result` library's `Ok(json) | Err(...)` as returned by
`process_body`. -/
inductive PResult where
  | ok : PyVal → PResult
  | err : ErrVal → PResult

/-- What one call of `process_body` did: its return value, the sleeps it
performed (in milliseconds: the code sleeps `ms / 1000` seconds), and how
many times it awaited `func()`. -/
structure RunTrace where
  result : PResult
  sleeps : List Int
  attempts : Nat

/-- `MatrixBot.MAX_RETRIES`. -/
def MAX_RETRIES : Nat := 6

/-- The loop body of `process_body`, from attempt `i` with `fuel`
iterations of `range(MAX_RETRIES)` left.  `script` maps the attempt index
to the response `await func()` yields.  Faithful to the source order:
`r.json()` is evaluated before the status is matched; 200 returns the
body; 429 sleeps `result.get('retry_after_ms', 2**retry_cnt) / 1000`
seconds and retries (a non-dict body makes `.get` raise AttributeError, a
non-numeric value makes the division raise TypeError; Python `bool` is an
`int`); 401/403 with an `{errcode, error}` mapping returns
`Err(errcode)`; anything else returns the unknown error. -/
def processBodyAux (script : Nat → HttpResponse) :
    Nat → Nat → List Int → Except PyExc RunTrace
  | i, 0, sleeps => .ok ⟨.err (.exhausted i), sleeps, i⟩
  | i, fuel + 1, sleeps =>
    let r := script i
    match r.body with
    | none => .error .jsonDecodeError
    | some j =>
      if r.status = 200 then .ok ⟨.ok j, sleeps, i + 1⟩
      else if r.status = 429 then
        match j with
        | .dict _ =>
          match lookupPv j "retry_after_ms" with
          | some (.num m) => processBodyAux script (i + 1) fuel (sleeps ++ [m])
          | some (.bool b) =>
              processBodyAux script (i + 1) fuel (sleeps ++ [if b then 1 else 0])
          | some _ => .error .typeError
          | none => processBodyAux script (i + 1) fuel (sleeps ++ [(2 : Int) ^ i])
        | _ => .error .attributeError
      else if r.status = 401 ∨ r.status = 403 then
        match lookupPv j "errcode", lookupPv j "error" with
        | some ec, some _ => .ok ⟨.err (.errcode ec), sleeps, i + 1⟩
        | _, _ => .ok ⟨.err (.unknown r.status j), sleeps, i + 1⟩
      else .ok ⟨.err (.unknown r.status j), sleeps, i + 1⟩

/-- `MatrixBot.process_body`. -/
def process_body (script : Nat → HttpResponse) : Except PyExc RunTrace :=
  processBodyAux script 0 MAX_RETRIES []

/-- A 429 body on which the retry path runs without raising and with a
well-defined millisecond delay: a dict whose `retry_after_ms`, if present,
is an integer. -/
def isRetryOkBody : PyVal → Bool
  | .dict kvs =>
    match lookupKv kvs "retry_after_ms" with
    | none => true
    | some (.num _) => true
    | some _ => false
  | _ => false

/-- The delay (ms) the code sleeps before the retry that follows a 429
with body `j` at attempt `i`: `j.get('retry_after_ms', 2 ** i)`. -/
def retryDelay (j : PyVal) (i : Nat) : Int :=
  match lookupPv j "retry_after_ms" with
  | some (.num m) => m
  | _ => (2 : Int) ^ i

/-- The sleeps performed across a run of 429 bodies `bs` starting at
attempt index `i`. -/
def expectedSleeps : List PyVal → Nat → List Int
  | [], _ => []
  | b :: rest, i => retryDelay b i :: expectedSleeps rest (i + 1)

theorem expectedSleeps_cons (b : PyVal) (rest : List PyVal) (i : Nat) :
    expectedSleeps (b :: rest) i = retryDelay b i :: expectedSleeps rest (i + 1) := rfl

/-- One 429 iteration of the loop: sleep `retryDelay` and move to the next
attempt. -/
theorem processBodyAux_step_429 (script : Nat → HttpResponse) (i f : Nat)
    (acc : List Int) (kvs : List (String × PyVal))
    (hb : script i = ⟨429, some (.dict kvs)⟩)
    (hgood : isRetryOkBody (.dict kvs) = true) :
    processBodyAux script i (f + 1) acc =
      processBodyAux script (i + 1) f (acc ++ [retryDelay (.dict kvs) i]) := by
  simp only [isRetryOkBody] at hgood
  simp only [processBodyAux, hb]
  unfold retryDelay
  cases hk : lookupKv kvs "retry_after_ms" with
  | none => simp [lookupPv, hk]
  | some v =>
    cases v <;> simp [lookupPv, hk] <;> simp [hk] at hgood

/-- Consuming a run of well-formed 429 responses: the loop advances the
attempt index past them, recording one sleep per retry. -/
theorem processBodyAux_consume (bs : List PyVal) :
    ∀ (script : Nat → HttpResponse) (i fuel : Nat) (acc : List Int),
    bs.length ≤ fuel →
    (∀ k, k < bs.length → script (i + k) = ⟨429, some (bs.getD k .pynone)⟩) →
    (∀ x ∈ bs, isRetryOkBody x = true) →
    processBodyAux script i fuel acc =
      processBodyAux script (i + bs.length) (fuel - bs.length)
        (acc ++ expectedSleeps bs i) := by
  induction bs with
  | nil =>
    intro script i fuel acc _ _ _
    simp [expectedSleeps]
  | cons b rest ih =>
    intro script i fuel acc hlen hscript hgood
    have hb : script i = ⟨429, some b⟩ := by
      have := hscript 0 (by simp)
      simpa using this
    have hbgood : isRetryOkBody b = true := hgood b (by simp)
    obtain ⟨f, rfl⟩ : ∃ f, fuel = f + 1 := by
      cases fuel with
      | zero => simp at hlen
      | succ f => exact ⟨f, rfl⟩
    obtain ⟨kvs, rfl⟩ : ∃ kvs, b = .dict kvs := by
      cases b <;> first
        | exact ⟨_, rfl⟩
        | simp [isRetryOkBody] at hbgood
    rw [processBodyAux_step_429 script i f acc kvs hb hbgood]
    have hrec := ih script (i + 1) f (acc ++ [retryDelay (.dict kvs) i])
      (by simpa using hlen)
      (by
        intro k hk
        have := hscript (k + 1) (by simpa using Nat.succ_lt_succ hk)
        simpa [Nat.add_assoc, Nat.add_comm 1 k] using this)
      (fun x hx => hgood x (by simp [hx]))
    rw [hrec]
    simp [expectedSleeps_cons, Nat.add_comm 1 rest.length, Nat.add_assoc,
      Nat.sub_sub]

/-- C1: for every sequence of HTTP 429 responses of length at most
`MAX_RETRIES - 1` followed by an HTTP 200 response, `process_body` returns
`Ok` with the decoded 200 body, and before each retry it sleeps for the
response's `retry_after_ms` milliseconds when that key is present, else
`2 ^ attempt` milliseconds (attempt counting from 0). -/
theorem claim1_retries_then_success (bs : List PyVal) (b : PyVal)
    (script : Nat → HttpResponse)
    (hlen : bs.length ≤ MAX_RETRIES - 1)
    (hgood : ∀ x ∈ bs, isRetryOkBody x = true)
    (h429 : ∀ k, k < bs.length → script k = ⟨429, some (bs.getD k .pynone)⟩)
    (h200 : script bs.length = ⟨200, some b⟩) :
    process_body script = .ok ⟨.ok b, expectedSleeps bs 0, bs.length + 1⟩ := by
  unfold process_body
  rw [processBodyAux_consume bs script 0 MAX_RETRIES []
    (le_trans hlen (by norm_num [MAX_RETRIES]))
    (by intro k hk; rw [Nat.zero_add]; exact h429 k hk) hgood]
  obtain ⟨f, hf⟩ : ∃ f, MAX_RETRIES - bs.length = f + 1 :=
    ⟨MAX_RETRIES - bs.length - 1, by
      have : bs.length ≤ MAX_RETRIES - 1 := hlen
      simp only [MAX_RETRIES] at this ⊢
      omega⟩
  rw [hf]
  simp only [Nat.zero_add, List.nil_append]
  simp [processBodyAux, h200]

/-- Witness for C1: one 429 with `retry_after_ms = 50`, one 429 without it
(so the delay is `2 ^ 1`), then a 200. -/
theorem claim1_witness :
    process_body (fun k =>
        if k = 0 then ⟨429, some (.dict [("retry_after_ms", .num 50)])⟩
        else if k = 1 then ⟨429, some (.dict [])⟩
        else ⟨200, some (.dict [("next_batch", .str "nb")])⟩) =
      .ok ⟨.ok (.dict [("next_batch", .str "nb")]), [50, 2], 3⟩ := by
  exact claim1_retries_then_success
    [.dict [("retry_after_ms", .num 50)], .dict []]
    (.dict [("next_batch", .str "nb")]) _
    (by norm_num [MAX_RETRIES])
    (by decide)
    (by
      intro k hk
      simp only [List.length_cons, List.length_nil] at hk
      interval_cases k <;> rfl)
    rfl

/-- C2: for `MAX_RETRIES` (= 6) consecutive HTTP 429 responses,
`process_body` returns the retries-exhausted `Err`, performs exactly
`MAX_RETRIES` attempts, and the attempt count reported in the error equals
`MAX_RETRIES`. -/
theorem claim2_rate_limit_exhausted (bs : List PyVal)
    (script : Nat → HttpResponse)
    (hlen : bs.length = MAX_RETRIES)
    (hgood : ∀ x ∈ bs, isRetryOkBody x = true)
    (h429 : ∀ k, k < bs.length → script k = ⟨429, some (bs.getD k .pynone)⟩) :
    process_body script =
      .ok ⟨.err (.exhausted MAX_RETRIES), expectedSleeps bs 0, MAX_RETRIES⟩ := by
  unfold process_body
  rw [processBodyAux_consume bs script 0 MAX_RETRIES [] (le_of_eq hlen)
    (by intro k hk; rw [Nat.zero_add]; exact h429 k hk) hgood]
  rw [hlen]
  simp [processBodyAux]

/-- Witness for C2: six plain 429 responses; the reported count and the
attempt count are both 6, and the backoffs are `2^0 .. 2^5`. -/
theorem claim2_witness :
    process_body (fun _ => ⟨429, some (.dict [])⟩) =
      .ok ⟨.err (.exhausted 6), [1, 2, 4, 8, 16, 32], 6⟩ := by
  exact claim2_rate_limit_exhausted
    [.dict [], .dict [], .dict [], .dict [], .dict [], .dict []] _
    (by norm_num [MAX_RETRIES])
    (by decide)
    (by
      intro k hk
      simp only [List.length_cons, List.length_nil] at hk
      interval_cases k <;> rfl)

/-- C10: `process_body` decodes the response body as JSON on every attempt
before matching the status code, so a response whose body is not valid
JSON raises (for any status code `s` whatsoever) instead of returning an
`Ok` or `Err` value — here after any run of well-formed 429 responses. -/
theorem claim10_json_decoded_before_status (bs : List PyVal) (s : Nat)
    (script : Nat → HttpResponse)
    (hlen : bs.length ≤ MAX_RETRIES - 1)
    (hgood : ∀ x ∈ bs, isRetryOkBody x = true)
    (h429 : ∀ k, k < bs.length → script k = ⟨429, some (bs.getD k .pynone)⟩)
    (hbad : script bs.length = ⟨s, none⟩) :
    process_body script = .error .jsonDecodeError := by
  unfold process_body
  rw [processBodyAux_consume bs script 0 MAX_RETRIES []
    (le_trans hlen (by norm_num [MAX_RETRIES]))
    (by intro k hk; rw [Nat.zero_add]; exact h429 k hk) hgood]
  obtain ⟨f, hf⟩ : ∃ f, MAX_RETRIES - bs.length = f + 1 :=
    ⟨MAX_RETRIES - bs.length - 1, by
      have : bs.length ≤ MAX_RETRIES - 1 := hlen
      simp only [MAX_RETRIES] at this ⊢
      omega⟩
  rw [hf]
  simp only [Nat.zero_add, List.nil_append]
  simp [processBodyAux, hbad]

/-- Witness for C10: a 429 followed by a 200 whose body is not valid
JSON; `process_body` raises the JSON decode error. -/
theorem claim10_witness :
    process_body (fun k =>
        if k = 0 then ⟨429, some (.dict [])⟩ else ⟨200, none⟩) =
      .error .jsonDecodeError := by
  exact claim10_json_decoded_before_status [.dict []] 200 _
    (by norm_num [MAX_RETRIES])
    (by decide)
    (by
      intro k hk
      simp only [List.length_cons, List.length_nil] at hk
      interval_cases k <;> rfl)
    rfl

/-! ## Token Store: `TokenResponse`, `MatrixBot._save_tokens`, `MatrixBot.get_auth` -/

/-- `MatrixModels.TokenResponse` (a NamedTuple with three optional
fields). -/
structure TokenResponse where
  refresh_token : Option String := none
  access_token : Option String := none
  expires_in_ms : Option Int := none

/-- Python truthiness of an `Optional[str]`: `None` and `""` are falsy. -/
def optStrTruthy : Option String → Bool
  | none => false
  | some s => !s.isEmpty

/-- Python truthiness of an `Optional[int]`: `None` and `0` are falsy. -/
def optIntTruthy : Option Int → Bool
  | none => false
  | some n => n != 0

/-- `TokenResponse.get_expiry`: `datetime.now() + timedelta(milliseconds =
expires_in_ms)` when both `access_token` and `expires_in_ms` are truthy,
else `None`.  `now` is the current POSIX timestamp in seconds. -/
def TokenResponse.get_expiry (t : TokenResponse) (now : ℚ) : Option ℚ :=
  if optStrTruthy t.access_token && optIntTruthy t.expires_in_ms then
    some (now + (t.expires_in_ms.getD 0 : ℚ) / 1000)
  else none

/-- `TokenResponse.from_dict`: keep only the three known keys; a key maps
to `some` stored value only when present and of the right shape (string
tokens, integer lifetime). -/
def TokenResponse.from_dict (kvs : List (String × PyVal)) : TokenResponse where
  refresh_token := match lookupKv kvs "refresh_token" with
    | some (.str s) => some s
    | _ => none
  access_token := match lookupKv kvs "access_token" with
    | some (.str s) => some s
    | _ => none
  expires_in_ms := match lookupKv kvs "expires_in_ms" with
    | some (.num n) => some n
    | _ => none

/-- The token-related fields of a `MatrixBot` instance. -/
structure AuthState where
  access_token : Option String
  access_token_expire : ℚ
  refresh_token : Option String

/-- `MatrixBot.get_auth`: a `Bearer` Authorization header when an access
token is set (truthy), else no headers. -/
def get_auth (s : AuthState) : List (String × String) :=
  if optStrTruthy s.access_token then
    [("Authorization", "Bearer " ++ s.access_token.getD "")]
  else []

/-- `MatrixBot._save_tokens`: update the access token (and, when
`get_expiry()` is truthy, the expiry) only when the result carries a
truthy access token; update the refresh token only when the result
carries a truthy refresh token. -/
def _save_tokens (s : AuthState) (t : TokenResponse) (now : ℚ) : AuthState :=
  let s1 :=
    if optStrTruthy t.access_token then
      let s' := { s with access_token := t.access_token }
      match t.get_expiry now with
      | some e => { s' with access_token_expire := e }
      | none => s'
    else s
  if optStrTruthy t.refresh_token then { s1 with refresh_token := t.refresh_token }
  else s1

/-- C5: applying `{access_token := "T", expires_in_ms := 1000}` at time
`t0` sets the Authorization header to `Bearer T` and the expiry to
`t0 + 1000 ms`; applying a subsequent result carrying only
`{refresh_token := "R"}` updates the refresh token and leaves the stored
access token, its expiry and the Authorization header unchanged. -/
theorem claim5_save_tokens_independent (s0 : AuthState) (t0 t1 : ℚ) :
    let s1 := _save_tokens s0 ⟨none, some "T", some 1000⟩ t0
    let s2 := _save_tokens s1 ⟨some "R", none, none⟩ t1
    s1.access_token = some "T" ∧
    get_auth s1 = [("Authorization", "Bearer T")] ∧
    s1.access_token_expire = t0 + 1 ∧
    s2.access_token = s1.access_token ∧
    s2.access_token_expire = s1.access_token_expire ∧
    get_auth s2 = get_auth s1 ∧
    s2.refresh_token = some "R" := by
  refine ⟨rfl, rfl, ?_, rfl, rfl, rfl, rfl⟩
  show t0 + (1000 : ℚ) / 1000 = t0 + 1
  norm_num

/-! ## Response Decoder and Dispatcher:
`EventMetadata.from_dict`, `RoomsResponse.from_dict`,
`MatrixBot.parse_room_join`, `MatrixBot.parse_room_invite` -/

/-- `MatrixModels.EventMetadata` (a NamedTuple; `event_id` and
`origin_server_ts` default to `None`, `unsigned` to `{}`).  Field values
are whatever Python values the envelope carried. -/
structure EventMetadata where
  room_id : PyVal
  sender : PyVal
  event_id : PyVal
  origin_server_ts : PyVal
  unsigned : PyVal

/-- `datetime.fromtimestamp(v / 1000)`: defined for Python numbers (a
`bool` is an `int`); any other operand of `/` raises TypeError — in
particular an already-converted `datetime`. -/
def fromtimestampDiv : PyVal → Except PyExc PyVal
  | .num m => .ok (.datetime ((m : ℚ) / 1000))
  | .bool b => .ok (.datetime ((if b then 1 else 0) / 1000))
  | _ => .error .typeError

/-- `EventMetadata.from_dict`: when `origin_server_ts` is present the
entry is overwritten IN PLACE with the converted timestamp (the mutated
dict is returned alongside the result, because the caller reuses it); the
construction then requires `room_id` and `sender` (TypeError when either
required field is missing), keeps only the known keys, and fills absent
optional fields with their defaults. -/
def EventMetadata.from_dict (d : List (String × PyVal)) :
    Except PyExc (EventMetadata × List (String × PyVal)) := do
  let d' ← match lookupKv d "origin_server_ts" with
    | none => pure d
    | some v => do
        let v' ← fromtimestampDiv v
        pure (setKv d "origin_server_ts" v')
  match lookupKv d' "room_id", lookupKv d' "sender" with
  | some rid, some snd =>
      .ok (⟨rid, snd, (lookupKv d' "event_id").getD .pynone,
            (lookupKv d' "origin_server_ts").getD .pynone,
            (lookupKv d' "unsigned").getD (.dict [])⟩, d')
  | _, _ => .error .typeError

/-- The listener registry `MatrixBot.listeners`: event-type key to the
ordered list of registered listeners, identified by opaque numbers. -/
abbrev Registry := List (String × List Nat)

/-- Appending a listener under a key of the defaultdict (insertion order,
no deduplication). -/
def registerListener : Registry → String → Nat → Registry
  | [], k, f => [(k, [f])]
  | (k', fs) :: rest, k, f =>
      if k' = k then (k', fs ++ [f]) :: rest
      else (k', fs) :: registerListener rest k f

/-- `MatrixBot.on_message`. -/
def on_message (reg : Registry) (f : Nat) : Registry :=
  registerListener reg "m.room.message" f

/-- `MatrixBot.on_reaction`. -/
def on_reaction (reg : Registry) (f : Nat) : Registry :=
  registerListener reg "m.reaction" f

/-- `MatrixBot.on_invite` (the placeholder sentinel key of the source). -/
def on_invite (reg : Registry) (f : Nat) : Registry :=
  registerListener reg "???" f

/-- Key lookup in the registry (`evt_type in self.listeners`, then
`self.listeners[evt_type]`). -/
def lookupReg : Registry → String → Option (List Nat)
  | [], _ => none
  | (k', fs) :: rest, k => if k' = k then some fs else lookupReg rest k

/-- The two log records `parse_room_join` can emit for a skipped event. -/
inductive Log where
  | infoSkipNoListener : PyVal → Log
  | warnUnknownEvent : PyVal → Log

/-- One listener call `f(evt_content.copy(), metadata=...)`:
which listener, the content value passed, and the metadata. -/
structure Invocation where
  listener : Nat
  content : PyVal
  metadata : EventMetadata

/-- The loop `for f in self.listeners[evt_type]`: note that
`EventMetadata.from_dict(rest)` is re-evaluated for EVERY listener, on
the dict the previous call mutated. -/
def runListeners (c : PyVal) :
    List Nat → List (String × PyVal) →
    Except PyExc (List Invocation × List (String × PyVal))
  | [], rest => .ok ([], rest)
  | f :: fs, rest => do
    let (md, rest') ← EventMetadata.from_dict rest
    let (invs, rest'') ← runListeners c fs rest'
    .ok (⟨f, c, md⟩ :: invs, rest'')

/-- An event that matches the timeline envelope pattern
`{"type": ..., "content": ..., **rest}`. -/
def isEnvelope : PyVal → Bool
  | .dict kvs => (lookupKv kvs "type").isSome && (lookupKv kvs "content").isSome
  | _ => false

/-- One timeline event of `parse_room_join`: a failed envelope pattern is
logged (warning) and skipped; a matching envelope with a registered type
dispatches to every listener of that type with `rest` extended by the
caller's `room_id`; a matching envelope of an unregistered type is logged
(info) and skipped.  An unhashable `type` value (a Python dict or list)
raises TypeError from the `in` test. -/
def processJoinEvent (reg : Registry) (room_id : String) (e : PyVal) :
    Except PyExc (List Invocation × List Log) :=
  match e with
  | .dict kvs =>
    match lookupKv kvs "type", lookupKv kvs "content" with
    | some t, some c =>
      match t with
      | .str s =>
        match lookupReg reg s with
        | some fs =>
          let rest := setKv (removeKv kvs ["type", "content"]) "room_id" (.str room_id)
          (runListeners c fs rest).map (fun p => (p.1, ([] : List Log)))
        | none => .ok ([], [.infoSkipNoListener t])
      | .dict _ => .error .typeError
      | .list _ => .error .typeError
      | _ => .ok ([], [.infoSkipNoListener t])
    | _, _ => .ok ([], [.warnUnknownEvent e])
  | _ => .ok ([], [.warnUnknownEvent e])

/-- The `for event in events` loop of `parse_room_join`. -/
def processJoinEvents (reg : Registry) (room_id : String) :
    List PyVal → Except PyExc (List Invocation × List Log)
  | [] => .ok ([], [])
  | e :: es => do
    let (i1, l1) ← processJoinEvent reg room_id e
    let (i2, l2) ← processJoinEvents reg room_id es
    .ok (i1 ++ i2, l1 ++ l2)

/-- `MatrixBot.parse_room_join`: a room dict that fails the pattern
`{"timeline": {"events": [*events]}}` is silently ignored. -/
def parse_room_join (reg : Registry) (room_id : String) (room : PyVal) :
    Except PyExc (List Invocation × List Log) :=
  match lookupPv room "timeline" with
  | some tl =>
    match lookupPv tl "events" with
    | some (.list events) => processJoinEvents reg room_id events
    | _ => .ok ([], [])
  | none => .ok ([], [])

/-- One invite-state event of `MatrixBot.parse_room_invite`: only events
whose `type` is literally `"m.room.member"` dispatch (to the sentinel
key's listeners); every other event is silently skipped. -/
def processInviteEvent (reg : Registry) (room_id : String) (e : PyVal) :
    Except PyExc (List Invocation) :=
  match e with
  | .dict kvs =>
    match lookupKv kvs "type", lookupKv kvs "content" with
    | some (.str "m.room.member"), some c =>
      let rest := setKv (removeKv kvs ["type", "content"]) "room_id" (.str room_id)
      (runListeners c ((lookupReg reg "???").getD []) rest).map Prod.fst
    | _, _ => .ok []
  | _ => .ok []

/-- The `for event in events` loop of `parse_room_invite`. -/
def processInviteEvents (reg : Registry) (room_id : String) :
    List PyVal → Except PyExc (List Invocation)
  | [] => .ok []
  | e :: es => do
    let i1 ← processInviteEvent reg room_id e
    let i2 ← processInviteEvents reg room_id es
    .ok (i1 ++ i2)

/-- `MatrixBot.parse_room_invite`: a room dict that fails the pattern
`{"invite_state": {"events": [*events]}}` is silently ignored. -/
def parse_room_invite (reg : Registry) (room_id : String) (room : PyVal) :
    Except PyExc (List Invocation) :=
  match lookupPv room "invite_state" with
  | some st =>
    match lookupPv st "events" with
    | some (.list events) => processInviteEvents reg room_id events
    | _ => .ok []
  | none => .ok []

/-- `MatrixModels.RoomsResponse` (the decoded `rooms` section). -/
structure RoomsResponse where
  invite : PyVal
  join : PyVal

/-- `RoomsResponse.from_dict`: inject `{}` for a missing `invite` or
`join` key, then keep exactly those two keys. -/
def RoomsResponse.from_dict (kvs : List (String × PyVal)) : RoomsResponse :=
  let kvs1 := if (lookupKv kvs "invite").isSome then kvs
    else setKv kvs "invite" (.dict [])
  let kvs2 := if (lookupKv kvs1 "join").isSome then kvs1
    else setKv kvs1 "join" (.dict [])
  ⟨(lookupKv kvs2 "invite").getD (.dict []), (lookupKv kvs2 "join").getD (.dict [])⟩

/-! ## Sync Loop: `MatrixBot.sync` and `MatrixBot.run` -/

/-- The `for room_id, room_dict in rooms_dict.join.items()` loop. -/
def foldJoinRooms (reg : Registry) :
    List (String × PyVal) → Except PyExc (List Invocation × List Log)
  | [] => .ok ([], [])
  | (rid, room) :: rest => do
    let (i1, l1) ← parse_room_join reg rid room
    let (i2, l2) ← foldJoinRooms reg rest
    .ok (i1 ++ i2, l1 ++ l2)

/-- The `for room_id, room_dict in rooms_dict.invite.items()` loop. -/
def foldInviteRooms (reg : Registry) :
    List (String × PyVal) → Except PyExc (List Invocation)
  | [] => .ok []
  | (rid, room) :: rest => do
    let i1 ← parse_room_invite reg rid room
    let i2 ← foldInviteRooms reg rest
    .ok (i1 ++ i2)

/-- One cycle of `MatrixBot.sync`, given the `Result` the Request
Executor produced for `GET client/v3/sync`.  Returns the value `sync`
returns (`next_batch`, or Python `None` on an `Err`, a body without
`next_batch`, or a non-dict body) together with the listener invocations
and logs of the cycle.  Joined rooms are processed before invited rooms;
iterating a non-dict `rooms`, `join` or `invite` raises AttributeError. -/
def sync (reg : Registry) (r : PResult) :
    Except PyExc (PyVal × List Invocation × List Log) :=
  match r with
  | .err _ => .ok (.pynone, [], [])
  | .ok body =>
    match lookupPv body "next_batch", lookupPv body "rooms" with
    | some nb, some rooms =>
      match rooms with
      | .dict kvs =>
        let rr := RoomsResponse.from_dict kvs
        match rr.join with
        | .dict joinRooms => do
          let (ji, jl) ← foldJoinRooms reg joinRooms
          match rr.invite with
          | .dict invRooms => do
            let ii ← foldInviteRooms reg invRooms
            .ok (nb, ji ++ ii, jl)
          | _ => .error .attributeError
        | _ => .error .attributeError
      | _ => .error .attributeError
    | some nb, none => .ok (nb, [], [])
    | none, _ => .ok (.pynone, [], [])

/-- Python truthiness of the values `sync` can return. -/
def pyTruthy : PyVal → Bool
  | .str s => !s.isEmpty
  | .num n => n != 0
  | .bool b => b
  | .pynone => false
  | .datetime _ => true
  | .list xs => !xs.isEmpty
  | .dict kvs => !kvs.isEmpty

/-- How a run of the sync loop ended: `terminated` when a cycle returned
a falsy value (the walrus-`while` exits), `running` when the scripted
responses were exhausted with the loop still going, `raised` when a cycle
raised. -/
inductive RunOutcome where
  | terminated
  | running
  | raised : PyExc → RunOutcome

/-- `MatrixBot.run`, driven by one scripted executor `Result` per cycle:
returns the cursor (`next_batch`) adopted after each completed cycle, and
how the loop ended. -/
def run (reg : Registry) : List PResult → List PyVal × RunOutcome
  | [] => ([], .running)
  | r :: rs =>
    match sync reg r with
    | .error e => ([], .raised e)
    | .ok (nb, _, _) =>
      if pyTruthy nb then
        let (cs, o) := run reg rs
        (nb :: cs, o)
      else ([], .terminated)

/-- The cursor a cycle hands to the next one: `some nb` when the sync
result is a success whose `next_batch` is truthy, else `none`. -/
def cycleNb (reg : Registry) (r : PResult) : Option PyVal :=
  match sync reg r with
  | .ok (nb, _, _) => if pyTruthy nb then some nb else none
  | .error _ => none

/-- C3 counterexample: one sync-response room whose single timeline event
has `type` and `content` but no `sender`, with a listener registered for
the type.  Decoding the event's metadata fails on the missing required
key, and `parse_room_join` RAISES TypeError instead of logging and
skipping the event. -/
theorem claim3_counterexample :
    parse_room_join (on_message [] 0) "!r:x"
      (.dict [("timeline", .dict [("events", .list [
        .dict [("type", .str "m.room.message"), ("content", .dict [])]])])]) =
      .error .typeError := rfl

/-- C3 amended: an event envelope that fails the structural pattern (not
a dict, or missing `type`/`content`) is logged (warning) and skipped
without raising, and the remaining events of the room are processed
exactly as they would be without it; but a well-shaped envelope whose
metadata decode fails (e.g. `sender` missing) raises and aborts the
cycle, as the counterexample shows. -/
theorem claim3_amended_bad_envelope_skipped (reg : Registry) (rid : String)
    (e0 : PyVal) (es : List PyVal) (h : isEnvelope e0 = false) :
    processJoinEvents reg rid (e0 :: es) =
      (processJoinEvents reg rid es).map
        (fun p => (p.1, Log.warnUnknownEvent e0 :: p.2)) := by
  have he : processJoinEvent reg rid e0 = .ok ([], [.warnUnknownEvent e0]) := by
    cases e0 with
    | dict kvs =>
      simp only [isEnvelope, Bool.and_eq_true] at h
      unfold processJoinEvent
      cases ht : lookupKv kvs "type" with
      | none => simp [ht]
      | some t =>
        cases hc : lookupKv kvs "content" with
        | none => simp [ht, hc]
        | some c => simp [ht, hc] at h
    | _ => rfl
  rw [processJoinEvents, he]
  cases hrec : processJoinEvents reg rid es with
  | error e => simp [Except.map, Except.bind, bind]
  | ok p => simp [Except.map, Except.bind, bind, pure, Except.pure]

/-- Witness for C3 amended: a malformed envelope (a bare string) in front
of a well-formed message event is logged and skipped, and the message
event still dispatches. -/
theorem claim3_witness :
    processJoinEvents (on_message [] 0) "!r:x"
      [.str "junk",
       .dict [("type", .str "m.room.message"),
              ("content", .dict [("body", .str "hi")]),
              ("sender", .str "@a:x")]] =
      .ok ([⟨0, .dict [("body", .str "hi")],
            ⟨.str "!r:x", .str "@a:x", .pynone, .pynone, .dict []⟩⟩],
           [.warnUnknownEvent (.str "junk")]) := by
  rw [claim3_amended_bad_envelope_skipped (on_message [] 0) "!r:x"
    (.str "junk") _ rfl]
  rfl

/-- C6: a joined room whose timeline is the single `m.room.message`
envelope of the claim, with exactly one listener registered via
`on_message`, invokes that listener exactly once, with the message
content and with metadata carrying the caller-supplied room id, sender
`@a:x`, event id `$1`, and `origin_server_ts` converted from epoch
milliseconds to the timestamp 1700000000 s (2023-11-14T22:13:20Z). -/
theorem claim6_single_message_dispatch (rid : String) :
    parse_room_join (on_message [] 0) rid
      (.dict [("timeline", .dict [("events", .list [
        .dict [("type", .str "m.room.message"),
               ("content", .dict [("body", .str "hi"), ("msgtype", .str "m.text")]),
               ("event_id", .str "$1"), ("sender", .str "@a:x"),
               ("origin_server_ts", .num 1700000000000)]])])]) =
      .ok ([⟨0, .dict [("body", .str "hi"), ("msgtype", .str "m.text")],
            ⟨.str rid, .str "@a:x", .str "$1", .datetime 1700000000, .dict []⟩⟩],
           []) := by
  have hts : ((1700000000000 : Int) : ℚ) / 1000 = (1700000000 : ℚ) := by norm_num
  have h1 : parse_room_join (on_message [] 0) rid
      (.dict [("timeline", .dict [("events", .list [
        .dict [("type", .str "m.room.message"),
               ("content", .dict [("body", .str "hi"), ("msgtype", .str "m.text")]),
               ("event_id", .str "$1"), ("sender", .str "@a:x"),
               ("origin_server_ts", .num 1700000000000)]])])]) =
      .ok ([⟨0, .dict [("body", .str "hi"), ("msgtype", .str "m.text")],
            ⟨.str rid, .str "@a:x", .str "$1",
             .datetime (((1700000000000 : Int) : ℚ) / 1000), .dict []⟩⟩],
           []) := rfl
  rw [h1, hts]

/-- C7: decoding the rooms section of a sync body `{"next_batch": "b1"}`
(no `rooms` key) injects empty `invite` and `join` mappings, and the sync
cycle still returns `"b1"` as the next cursor (with no dispatches and no
logs). -/
theorem claim7_sync_without_rooms (reg : Registry) :
    RoomsResponse.from_dict [] = ⟨.dict [], .dict []⟩ ∧
    sync reg (.ok (.dict [("next_batch", .str "b1")])) =
      .ok (.str "b1", [], []) :=
  ⟨rfl, rfl⟩

/-- C8 counterexample: a cycle in which the Request Executor returns
success (`Ok {}`, a body without `next_batch`) makes `sync` return
`None`, and the loop terminates — so the loop does NOT terminate only on
executor errors. -/
theorem claim8_counterexample :
    run [] [.ok (.dict [])] = ([], .terminated) := rfl

/-- C8 amended: the sync loop self-transitions exactly on cycles whose
executor result is a success whose body carries a truthy `next_batch`
(and whose parsing raises nothing): for every script of such cycles the
loop never terminates, adopting each cycle's `next_batch` as the new
cursor; it terminates when the executor fails, but also when a success
body lacks a truthy `next_batch`, as the counterexample shows. -/
theorem claim8_amended_loop_advance (reg : Registry)
    (script : List PResult)
    (h : ∀ r ∈ script, (cycleNb reg r).isSome = true) :
    (run reg script).1 = script.map (fun r => (cycleNb reg r).getD .pynone) ∧
    (run reg script).2 = .running := by
  induction script with
  | nil => exact ⟨rfl, rfl⟩
  | cons r rs ih =>
    have hr := h r (by simp)
    obtain ⟨nb, hnb⟩ := Option.isSome_iff_exists.mp hr
    simp only [cycleNb] at hnb
    cases hs : sync reg r with
    | error e => rw [hs] at hnb; simp at hnb
    | ok t =>
      obtain ⟨nb', rest⟩ := t
      rw [hs] at hnb
      simp only at hnb
      by_cases htr : pyTruthy nb' = true
      · have hrec := ih (fun x hx => h x (by simp [hx]))
        have hcy : cycleNb reg r = some nb' := by
          simp only [cycleNb, hs, htr, if_true]
        constructor
        · simp only [run, hs, htr, if_true, List.map_cons, hcy]
          simp [hrec.1]
        · simp only [run, hs, htr, if_true]
          simp [hrec.2]
      · simp [htr] at hnb

/-- Witness for C8 amended: two successful cycles with truthy cursors
`b1`, `b2`; the loop adopts both and is still running. -/
theorem claim8_witness :
    (run [] [.ok (.dict [("next_batch", .str "b1")]),
             .ok (.dict [("next_batch", .str "b2")])]).1 =
      [.str "b1", .str "b2"] ∧
    (run [] [.ok (.dict [("next_batch", .str "b1")]),
             .ok (.dict [("next_batch", .str "b2")])]).2 = .running := by
  have h := claim8_amended_loop_advance []
    [.ok (.dict [("next_batch", .str "b1")]),
     .ok (.dict [("next_batch", .str "b2")])]
    (by decide)
  exact ⟨h.1.trans (by rfl), h.2⟩

/-! ## Homeserver Resolver: `MatrixBot._test_is_homeserver`,
`MatrixBot.get_homeserver` -/

/-- An `httpx.URL` as this code uses it. -/
structure Url where
  scheme : String
  host : String
  path : String
deriving DecidableEq

/-- `httpx.URL.join` for the references this code passes: an absolute
reference path replaces the URL's path, a relative one is resolved
against the directory of the URL's path (RFC 3986 merge). -/
def Url.join (u : Url) (ref : String) : Url :=
  match ref.data with
  | '/' :: _ => { u with path := ref }
  | _ =>
    { u with
      path := ⟨(u.path.data.reverse.dropWhile (fun c => c ≠ '/')).reverse ++ ref.data⟩ }

/-- The characters before and after the first `://`, if any. -/
def splitScheme : List Char → Option (List Char × List Char)
  | [] => none
  | ':' :: '/' :: '/' :: rest => some ([], rest)
  | ch :: rest => (splitScheme rest).map (fun p => (ch :: p.1, p.2))

/-- The characters before the first `/` and the rest (starting at that
`/`). -/
def splitHost : List Char → List Char × List Char
  | [] => ([], [])
  | '/' :: rest => ([], '/' :: rest)
  | ch :: rest =>
    let (h, p) := splitHost rest
    (ch :: h, p)

/-- `httpx.URL(s)` on an URL string: the scheme before `://`, then the
host up to the first `/`, then the path. -/
def parseUrl (s : String) : Url :=
  match splitScheme s.data with
  | some (sch, rest) =>
    let (host, path) := splitHost rest
    ⟨⟨sch⟩, ⟨host⟩, ⟨path⟩⟩
  | none => ⟨"", s, ""⟩

/-- Python `needle in j` on a decoded JSON value: key test on a dict,
membership on a list, substring test on a string; TypeError on values
that support no `in`. -/
def pyContains (needle : String) : PyVal → Except PyExc Bool
  | .dict kvs => .ok (kvs.any (fun p => p.1 == needle))
  | .list xs => .ok (xs.any (fun x => match x with
      | .str s => s == needle
      | _ => false))
  | .str s => .ok (decide ((s.splitOn needle).length > 1))
  | _ => .error .typeError

/-- `MatrixBot._test_is_homeserver`, given the response of the probe
`GET homeserver.join('client/versions')`: a non-HTTPS scheme is rejected
without probing; on HTTP 200 the body is decoded (raising on invalid
JSON) and `'versions' in r.json()` decides; any other status is a clean
failure. -/
def _test_is_homeserver (u : Url) (resp : HttpResponse) : Except PyExc Bool :=
  if u.scheme ≠ "https" then .ok false
  else if resp.status = 200 then
    match resp.body with
    | none => .error .jsonDecodeError
    | some j => pyContains "versions" j
  else .ok false

/-- The HTTP responses `get_homeserver` can observe: the direct probe of
`https://{server_name}/_matrix/`, the `.well-known` lookup, and the probe
of whatever delegated URL the discovery document names. -/
structure DiscoveryWorld where
  probe1 : HttpResponse
  wellknown : HttpResponse
  probe2 : Url → HttpResponse

/-- `m.homeserver.base_url` of a discovery document, when the document
matches the pattern `{"m.homeserver": {"base_url": base_url}}`. -/
def docBaseUrl (j : PyVal) : Option PyVal :=
  match lookupPv j "m.homeserver" with
  | some hs => lookupPv hs "base_url"
  | none => none

/-- `MatrixBot.get_homeserver`: probe `https://{server_name}/_matrix/`
directly; on failure GET the `.well-known` document and, if it is an
HTTP 200 whose body matches `{"m.homeserver": {"base_url": ...}}`,
re-probe `URL(base_url).join('/_matrix/')`; in every remaining case raise
`ValueError` (the resolution error).  A 200 `.well-known` response whose
body is not valid JSON raises the JSON decode error from `r.json()`
instead, and a non-string `base_url` raises TypeError from
`httpx.URL(...)`. -/
def get_homeserver (server_name : String) (w : DiscoveryWorld) :
    Except PyExc Url :=
  let maybe1 : Url := ⟨"https", server_name, "/_matrix/"⟩
  match _test_is_homeserver maybe1 w.probe1 with
  | .error e => .error e
  | .ok true => .ok maybe1
  | .ok false =>
    if w.wellknown.status = 200 then
      match w.wellknown.body with
      | none => .error .jsonDecodeError
      | some j =>
        match docBaseUrl j with
        | some (.str b) =>
          let maybe2 := (parseUrl b).join "/_matrix/"
          match _test_is_homeserver maybe2 (w.probe2 maybe2) with
          | .error e => .error e
          | .ok true => .ok maybe2
          | .ok false => .error (.valueError server_name)
        | some _ => .error .typeError
        | none => .error (.valueError server_name)
    else .error (.valueError server_name)

/-- C9 counterexample: the direct probe fails cleanly and the
`.well-known` response is an HTTP 200 whose body is not decodable JSON.
Resolution then raises the JSON decode error from `r.json()`, not the
resolution `ValueError` — so not every malformed discovery response is a
resolution failure. -/
theorem claim9_counterexample :
    get_homeserver "h.example"
        ⟨⟨500, some (.dict [])⟩, ⟨200, none⟩, fun _ => ⟨500, some (.dict [])⟩⟩ =
      .error .jsonDecodeError ∧
    PyExc.jsonDecodeError ≠ PyExc.valueError "h.example" :=
  ⟨rfl, by decide⟩

/-- C9 amended: when the direct probe fails cleanly, a non-200
`.well-known` response and a decodable 200 body that does not match
`{"m.homeserver": {"base_url": ...}}` both fail with the resolution
`ValueError`; a 200 response with an undecodable body instead raises the
JSON decode error; and for a document with a string `base_url` the
resolver re-probes `URL(base_url).join('/_matrix/')` and succeeds with
exactly that URL iff the probe succeeds, failing with the resolution
error when the probe fails cleanly. -/
theorem claim9_amended_resolution (sn : String) (w : DiscoveryWorld)
    (h1 : _test_is_homeserver ⟨"https", sn, "/_matrix/"⟩ w.probe1 = .ok false) :
    (w.wellknown.status ≠ 200 → get_homeserver sn w = .error (.valueError sn)) ∧
    (w.wellknown.status = 200 → w.wellknown.body = none →
      get_homeserver sn w = .error .jsonDecodeError) ∧
    (∀ j, w.wellknown.status = 200 → w.wellknown.body = some j →
      docBaseUrl j = none → get_homeserver sn w = .error (.valueError sn)) ∧
    (∀ j b, w.wellknown.status = 200 → w.wellknown.body = some j →
      docBaseUrl j = some (.str b) →
      (_test_is_homeserver ((parseUrl b).join "/_matrix/")
          (w.probe2 ((parseUrl b).join "/_matrix/")) = .ok true →
        get_homeserver sn w = .ok ((parseUrl b).join "/_matrix/")) ∧
      (_test_is_homeserver ((parseUrl b).join "/_matrix/")
          (w.probe2 ((parseUrl b).join "/_matrix/")) = .ok false →
        get_homeserver sn w = .error (.valueError sn))) := by
  refine ⟨?_, ?_, ?_, ?_⟩
  · intro hne
    simp only [get_homeserver, h1, if_neg hne]
  · intro h200 hb
    simp only [get_homeserver, h1, if_pos h200, hb]
  · intro j h200 hb hdoc
    simp only [get_homeserver, h1, if_pos h200, hb, hdoc]
  · intro j b h200 hb hdoc
    constructor
    · intro hp
      simp only [get_homeserver, h1, if_pos h200, hb, hdoc, hp]
    · intro hp
      simp only [get_homeserver, h1, if_pos h200, hb, hdoc, hp]

/-- The discovery world of the C9 witness: direct probe 404, delegation
to `https://h2.example`, whose probe answers 200 with a `versions` key. -/
def worldC9 : DiscoveryWorld where
  probe1 := ⟨404, some (.dict [])⟩
  wellknown := ⟨200, some (.dict [("m.homeserver",
    .dict [("base_url", .str "https://h2.example")])])⟩
  probe2 := fun u =>
    if u = ⟨"https", "h2.example", "/_matrix/"⟩ then
      ⟨200, some (.dict [("versions", .list [.str "v1.1"])])⟩
    else ⟨404, some (.dict [])⟩

/-- Witness for C9 amended: delegated discovery through `worldC9`
resolves to `https://h2.example/_matrix/`. -/
theorem claim9_witness :
    get_homeserver "h.example" worldC9 =
      .ok ⟨"https", "h2.example", "/_matrix/"⟩ := by
  have h := (claim9_amended_resolution "h.example" worldC9 (by rfl)).2.2.2
    (.dict [("m.homeserver", .dict [("base_url", .str "https://h2.example")])])
    "https://h2.example" rfl rfl (by rfl)
  exact (h.1 (by rfl)).trans (by rfl)

/-! ## Dispatch copy semantics

The inner dispatch loop `for f in self.listeners[evt_type]:
f(evt_content.copy(), ...)` passes each listener a SHALLOW copy
(`dict.copy`) of the same content dict.  To settle what a listener's
mutations can do to the listeners after it, Python's object graph is
modelled explicitly: a heap of cells, where a dict cell holds references
(addresses) to its values. -/

/-- A heap cell: an immutable primitive, or a dict whose entries point to
other cells. -/
inductive HVal where
  | prim : Int → HVal
  | hdict : List (String × Nat) → HVal

/-- The heap: cell at address `a` is the list entry at index `a`;
allocation appends. -/
abbrev Heap := List HVal

/-- The cell at an address (dangling addresses read as an inert prim). -/
def heapAt (h : Heap) (a : Nat) : HVal := (h[a]?).getD (.prim 0)

/-- The entries of a cell (a prim has none). -/
def hvalEntries : HVal → List (String × Nat)
  | .prim _ => []
  | .hdict es => es

/-- Key lookup among dict entries. -/
def lookupEntry : List (String × Nat) → String → Option Nat
  | [], _ => none
  | (k', t) :: es, k => if k' = k then some t else lookupEntry es k

/-- `d[k] = target`: repoint an existing key in place, append a new one. -/
def setEntry : List (String × Nat) → String → Nat → List (String × Nat)
  | [], k, t => [(k, t)]
  | (k', t') :: es, k, t =>
    if k' = k then (k, t) :: es else (k', t') :: setEntry es k t

/-- Read the primitive reached from address `a` along a path of keys. -/
def readPath (h : Heap) : Nat → List String → Option Int
  | a, [] =>
    match heapAt h a with
    | .prim v => some v
    | .hdict _ => none
  | a, k :: p =>
    match heapAt h a with
    | .hdict es =>
      match lookupEntry es k with
      | some a' => readPath h a' p
      | none => none
    | .prim _ => none

/-- `evt_content.copy()`: allocate a fresh top-level dict with the same
entry list — the values stay shared. -/
def shallowCopy (h : Heap) (a : Nat) : Nat × Heap := (h.length, h ++ [heapAt h a])

/-- `d[k] = v` on the dict at address `c` with a fresh primitive `v`. -/
def setTopM (h : Heap) (c : Nat) (k : String) (v : Int) : Heap :=
  match heapAt h c with
  | .hdict es => (h.set c (.hdict (setEntry es k h.length))) ++ [.prim v]
  | .prim _ => h

/-- `d[k1][k2] = v`: mutate the SHARED cell the key `k1` points to. -/
def setNestedM (h : Heap) (c : Nat) (k1 k2 : String) (v : Int) : Heap :=
  match heapAt h c with
  | .hdict es =>
    match lookupEntry es k1 with
    | some a1 => setTopM h a1 k2 v
    | none => h
  | .prim _ => h

/-- A mutation a listener performs on the content value it received:
an assignment to a key of the received dict itself, or an assignment
through one of its (shared) nested dict values. -/
inductive Mut where
  | topAssign : String → Int → Mut
  | nestedAssign : String → String → Int → Mut

/-- Whether a mutation touches only the top level of the received dict. -/
def Mut.isTop : Mut → Bool
  | .topAssign _ _ => true
  | .nestedAssign _ _ _ => false

/-- Run one mutation on the content received at address `c`. -/
def runMut (h : Heap) (c : Nat) : Mut → Heap
  | .topAssign k v => setTopM h c k v
  | .nestedAssign k1 k2 v => setNestedM h c k1 k2 v

/-- Run a listener's mutations in order. -/
def runMuts (h : Heap) (c : Nat) : List Mut → Heap
  | [] => h
  | m :: ms => runMuts (runMut h c m) c ms

/-- A listener, as the copy-semantics analysis sees it: the paths it
reads from the received content on entry, then the mutations it performs
on it. -/
structure ListenerBody where
  reads : List (List String)
  muts : List Mut

/-- What one run of the dispatch loop for one event did: the final heap,
each invoked listener's observations in registration order, and the
exception that aborted the loop, if any (the observations of the
listeners that ran before it are kept). -/
structure DispatchResult where
  heap : Heap
  obs : List (List (Option Int))
  raised : Option PyExc

/-- The dispatch loop `for f in self.listeners[evt_type]:
f(evt_content.copy(), metadata=EventMetadata.from_dict(rest))`, in full:
each iteration first evaluates the arguments left to right — the fresh
shallow copy of the content at `a`, then `EventMetadata.from_dict(rest)`
on the SAME `rest` dict every time, which mutates it in place (so a
present `origin_server_ts` is a `datetime` from the second iteration on
and the division raises TypeError, aborting the loop before that
listener runs) — and only then runs the listener: its reads against its
copy, then its mutations. -/
def dispatchLoopFull (h : Heap) (a : Nat) (rest : List (String × PyVal)) :
    List ListenerBody → DispatchResult
  | [] => ⟨h, [], none⟩
  | l :: ls =>
    let (c, h1) := shallowCopy h a
    match EventMetadata.from_dict rest with
    | .error e => ⟨h1, [], some e⟩
    | .ok (_md, rest') =>
      let obs := l.reads.map (readPath h1 c)
      let h2 := runMuts h1 c l.muts
      let r := dispatchLoopFull h2 a rest' ls
      ⟨r.heap, obs :: r.obs, r.raised⟩

/-- A well-formed heap: every reference points inside the heap. -/
def HeapClosed (h : Heap) : Prop :=
  ∀ v ∈ h, ∀ p ∈ hvalEntries v, p.2 < h.length

instance : DecidablePred HeapClosed := fun h =>
  decidable_of_iff (∀ v ∈ h, ∀ p ∈ hvalEntries v, p.2 < h.length) Iff.rfl

/-- `h` extends `h0`: it is at least as long and its cells below
`h0.length` are unchanged. -/
def Agree (h0 h : Heap) : Prop :=
  h0.length ≤ h.length ∧ ∀ i, i < h0.length → h[i]? = h0[i]?

theorem Agree.refl (h0 : Heap) : Agree h0 h0 :=
  ⟨Nat.le_refl _, fun _ _ => Eq.refl _⟩

theorem Agree.append (h0 h : Heap) (l : List HVal) (hag : Agree h0 h) :
    Agree h0 (h ++ l) := by
  obtain ⟨hlen, hget⟩ := hag
  refine ⟨by simp; omega, fun i hi => ?_⟩
  rw [List.getElem?_append, if_pos (Nat.lt_of_lt_of_le hi hlen)]
  exact hget i hi

theorem Agree.set_ge (h0 h : Heap) (c : Nat) (x : HVal) (hag : Agree h0 h)
    (hc : h0.length ≤ c) : Agree h0 (h.set c x) := by
  obtain ⟨hlen, hget⟩ := hag
  refine ⟨by simp [hlen], fun i hi => ?_⟩
  rw [List.getElem?_set_ne (by omega)]
  exact hget i hi

theorem heapAt_agree (h0 h : Heap) (a : Nat) (hag : Agree h0 h)
    (ha : a < h0.length) : heapAt h a = heapAt h0 a := by
  unfold heapAt
  rw [hag.2 a ha]

/-- A successful `lookupEntry` is a membership. -/
theorem lookupEntry_mem (es : List (String × Nat)) (k : String) (t : Nat)
    (hlk : lookupEntry es k = some t) : (k, t) ∈ es := by
  induction es with
  | nil => simp [lookupEntry] at hlk
  | cons e es ih =>
    obtain ⟨k', t'⟩ := e
    by_cases hk : k' = k
    · subst hk
      simp [lookupEntry] at hlk
      simp [hlk]
    · simp only [lookupEntry, if_neg hk] at hlk
      simp [ih hlk]

/-- In a closed heap, dict entries of a live cell point below the
heap's length. -/
theorem closed_entry_lt (h0 : Heap) (hc : HeapClosed h0) (a : Nat)
    (ha : a < h0.length) (es : List (String × Nat))
    (hes : heapAt h0 a = .hdict es) (k : String) (t : Nat)
    (hlk : lookupEntry es k = some t) : t < h0.length := by
  have hmem : heapAt h0 a ∈ h0 := by
    unfold heapAt
    rw [List.getElem?_eq_getElem ha]
    exact List.getElem_mem ha
  rw [hes] at hmem
  exact hc _ hmem (k, t) (lookupEntry_mem es k t hlk)

/-- Reads from an address of the original heap are unchanged in any
extension of it. -/
theorem readPath_agree (h0 : Heap) (hc : HeapClosed h0) (p : List String) :
    ∀ (h : Heap) (a : Nat), Agree h0 h → a < h0.length →
    readPath h a p = readPath h0 a p := by
  induction p with
  | nil =>
    intro h a hag ha
    simp only [readPath, heapAt_agree h0 h a hag ha]
  | cons k p ih =>
    intro h a hag ha
    simp only [readPath, heapAt_agree h0 h a hag ha]
    cases hcell : heapAt h0 a with
    | prim v => rfl
    | hdict es =>
      cases hlk : lookupEntry es k with
      | none => simp [hlk]
      | some a' =>
        simp only [hlk]
        exact ih h a' hag (closed_entry_lt h0 hc a ha es hcell k a' hlk)

/-- Reads from a fresh shallow copy of an original cell coincide with
reads from the original. -/
theorem readPath_copy (h0 : Heap) (hc : HeapClosed h0) (h : Heap) (a : Nat)
    (hag : Agree h0 h) (ha : a < h0.length) (p : List String) :
    readPath (h ++ [heapAt h0 a]) h.length p = readPath h0 a p := by
  have hat : heapAt (h ++ [heapAt h0 a]) h.length = heapAt h0 a := by
    unfold heapAt
    rw [List.getElem?_concat_length]
    rfl
  cases p with
  | nil => simp only [readPath, hat]
  | cons k p =>
    simp only [readPath, hat]
    cases hcell : heapAt h0 a with
    | prim v => rfl
    | hdict es =>
      cases hlk : lookupEntry es k with
      | none => simp [hlk]
      | some a' =>
        simp only [hlk]
        exact readPath_agree h0 hc p _ a' (Agree.append h0 h _ hag)
          (closed_entry_lt h0 hc a ha es hcell k a' hlk)

/-- Top-level mutations through an address at or above the original
heap's length leave the original cells untouched. -/
theorem runMuts_agree (h0 : Heap) (ms : List Mut)
    (htop : ∀ m ∈ ms, m.isTop = true) :
    ∀ (h : Heap) (c : Nat), Agree h0 h → h0.length ≤ c →
    Agree h0 (runMuts h c ms) := by
  induction ms with
  | nil => intro h c hag _; exact hag
  | cons m ms ih =>
    intro h c hag hc
    have hm := htop m (by simp)
    cases m with
    | nestedAssign k1 k2 v => simp [Mut.isTop] at hm
    | topAssign k v =>
      have hstep : Agree h0 (runMut h c (.topAssign k v)) := by
        simp only [runMut, setTopM]
        cases heapAt h c with
        | prim _ => exact hag
        | hdict es =>
          exact Agree.append h0 _ _ (Agree.set_ge h0 h c _ hag hc)
      exact ih (fun x hx => htop x (by simp [hx])) _ c hstep hc

/-- The observations of each listener in the dispatch loop, when every
mutation of every listener is top-level and decoding the metadata dict
`rest` succeeds without changing it (which is exactly the case when the
envelope carries no `origin_server_ts`): no iteration raises, every
listener is invoked, and each sees exactly the original content. -/
theorem dispatchLoopFull_obs (h0 : Heap) (a : Nat) (hc : HeapClosed h0)
    (ha : a < h0.length) (rest : List (String × PyVal)) (md : EventMetadata)
    (hmd : EventMetadata.from_dict rest = .ok (md, rest)) :
    ∀ (ls : List ListenerBody) (h : Heap), Agree h0 h →
    (∀ l ∈ ls, ∀ m ∈ l.muts, m.isTop = true) →
    (dispatchLoopFull h a rest ls).obs =
      ls.map (fun l => l.reads.map (readPath h0 a)) ∧
    (dispatchLoopFull h a rest ls).raised = none := by
  intro ls
  induction ls with
  | nil => intro h _ _; exact ⟨rfl, rfl⟩
  | cons l ls ih =>
    intro h hag htop
    have hcopy : heapAt h a = heapAt h0 a := heapAt_agree h0 h a hag ha
    simp only [dispatchLoopFull, shallowCopy, hcopy, hmd]
    have hobs : l.reads.map (readPath (h ++ [heapAt h0 a]) h.length) =
        l.reads.map (readPath h0 a) := by
      apply List.map_congr_left
      intro p _
      exact readPath_copy h0 hc h a hag ha p
    have hag2 : Agree h0 (runMuts (h ++ [heapAt h0 a]) h.length l.muts) :=
      runMuts_agree h0 l.muts (htop l (by simp)) _ h.length
        (Agree.append h0 h _ hag) hag.1
    have hrec := ih (runMuts (h ++ [heapAt h0 a]) h.length l.muts) hag2
      (fun x hx => htop x (by simp [hx]))
    exact ⟨by simp only [List.map_cons, hobs, hrec.1], hrec.2⟩

/-- C4 counterexample, refuting both halves of the claim on the full
dispatch loop.  (1) Content `{k: {x: 7}}`, metadata dict without
`origin_server_ts`, two listeners: the first mutates
`received["k"]["x"] = 99` — a mutation on the content value it received,
through the shallow copy's shared nested dict — and the second listener
OBSERVES 99 instead of the original 7.  (2) The same loop with a
metadata dict that carries `origin_server_ts` and two listeners: the
second iteration's `EventMetadata.from_dict(rest)` divides the
`datetime` written by the first and raises TypeError, so the second
listener is never invoked at all (one observation row, not two). -/
theorem claim4_counterexample :
    ((dispatchLoopFull [.hdict [("k", 1)], .hdict [("x", 2)], .prim 7] 0
        [("room_id", .str "!r:x"), ("sender", .str "@a:x")]
        [⟨[], [.nestedAssign "k" "x" 99]⟩, ⟨[["k", "x"]], []⟩]).obs =
      [[], [some 99]] ∧
     readPath [.hdict [("k", 1)], .hdict [("x", 2)], .prim 7] 0 ["k", "x"] =
      some 7) ∧
    ((dispatchLoopFull [.hdict [("k", 1)], .hdict [("x", 2)], .prim 7] 0
        [("room_id", .str "!r:x"), ("sender", .str "@a:x"),
         ("origin_server_ts", .num 1700000000000)]
        [⟨[], []⟩, ⟨[["k", "x"]], []⟩]).obs = [[]] ∧
     (dispatchLoopFull [.hdict [("k", 1)], .hdict [("x", 2)], .prim 7] 0
        [("room_id", .str "!r:x"), ("sender", .str "@a:x"),
         ("origin_server_ts", .num 1700000000000)]
        [⟨[], []⟩, ⟨[["k", "x"]], []⟩]).raised = some .typeError) :=
  ⟨⟨rfl, rfl⟩, ⟨rfl, rfl⟩⟩

/-- C4 amended: provided decoding the event's metadata dict is a no-op
success (`EventMetadata.from_dict rest = .ok (md, rest)`, i.e. the
envelope carries no `origin_server_ts` — otherwise the second
iteration's re-decode raises TypeError and later listeners never run),
each listener is invoked synchronously in registration order with a
fresh SHALLOW copy of the event content and nothing raises; mutations a
listener performs on the top level of its copy are not observable by the
listeners invoked after it (each sees exactly the original content), but
mutations reaching through nested shared values are shared, as the
counterexample shows. -/
theorem claim4_amended_shallow_copy_isolation (h0 : Heap) (a : Nat)
    (ls : List ListenerBody) (rest : List (String × PyVal))
    (md : EventMetadata) (hc : HeapClosed h0) (ha : a < h0.length)
    (hmd : EventMetadata.from_dict rest = .ok (md, rest))
    (htop : ∀ l ∈ ls, ∀ m ∈ l.muts, m.isTop = true) :
    (dispatchLoopFull h0 a rest ls).obs =
      ls.map (fun l => l.reads.map (readPath h0 a)) ∧
    (dispatchLoopFull h0 a rest ls).raised = none :=
  dispatchLoopFull_obs h0 a hc ha rest md hmd ls h0 (Agree.refl h0) htop

/-- Witness for C4 amended: content `{x: 7}`, metadata dict
`{room_id, sender}` (no `origin_server_ts`); the first listener sets
`received["x"] = 5` (top level), and the second still reads the original
7 from its own copy, with no exception raised. -/
theorem claim4_witness :
    (dispatchLoopFull [.hdict [("x", 1)], .prim 7] 0
        [("room_id", .str "!r:x"), ("sender", .str "@a:x")]
        [⟨[["x"]], [.topAssign "x" 5]⟩, ⟨[["x"]], []⟩]).obs =
      [[some 7], [some 7]] ∧
    (dispatchLoopFull [.hdict [("x", 1)], .prim 7] 0
        [("room_id", .str "!r:x"), ("sender", .str "@a:x")]
        [⟨[["x"]], [.topAssign "x" 5]⟩, ⟨[["x"]], []⟩]).raised = none := by
  have h := claim4_amended_shallow_copy_isolation [.hdict [("x", 1)], .prim 7] 0
    [⟨[["x"]], [.topAssign "x" 5]⟩, ⟨[["x"]], []⟩]
    [("room_id", .str "!r:x"), ("sender", .str "@a:x")]
    ⟨.str "!r:x", .str "@a:x", .pynone, .pynone, .dict []⟩
    (by decide) (by decide) (by rfl) (by decide)
  exact ⟨h.1.trans (by rfl), h.2⟩

end MatrixBotLib
